import Mathlib

/-!
Shallow embedding of the CORS relay worker (Hono-based Cloudflare Worker,
`src/index.ts` and its latest variant).  The worker is a stateless request
forwarder: it validates a target URL against fixed allow-lists, optionally
injects OAuth client credentials into a form body, performs at most one
outbound fetch, and relays the upstream response or a normalized error.

Modelling conventions:
- JavaScript strings are modelled as Lean `String`s; the `String.prototype`
  operations `includes`, `startsWith`, `endsWith`, `substring(0, n)` are
  modelled by executable char-list functions so that every definition
  reduces inside the kernel.
- `URLSearchParams` is modelled over `List (String × String)` with the
  WHATWG `application/x-www-form-urlencoded` parser and serializer at the
  UTF-8 byte level.  On an invalid UTF-8 sequence the decoder emits one
  replacement character and resynchronizes after the lead byte (the claims
  never exercise invalid sequences).
- JSON values are modelled by an inductive `Json`; numbers are modelled as
  integers (fractional/exponent literals are outside the model, and no claim
  exercises them).
- The single outbound `fetch` of a handler is modelled by passing in a
  `FetchOutcome` describing what the world returns for that one call; a
  handler result records the fetch it attempted (if any), the response
  status, and the JSON payload passed to `c.json`.
- JavaScript property reads on parsed JSON values (`data.error`,
  `data.message`) are modelled by `jsGetProp`, which throws (`Except.error`)
  on `null` exactly as JavaScript does; the `.message` strings of runtime
  exceptions (`SyntaxError` from `JSON.parse`, `TypeError` from a read on
  `null`) are runtime-dependent and passed to the handlers as parameters.
-/

set_option autoImplicit false

namespace CorsRelay

/-! ## Char-list string primitives (kernel-reducible) -/

/-- Does `l` contain `needle` as a contiguous subsequence?
Models JS `String.prototype.includes` at the char level. -/
def containsSeq (needle : List Char) : List Char → Bool
  | [] => needle.isEmpty
  | c :: rest => needle.isPrefixOf (c :: rest) || containsSeq needle rest

/-- JS `haystack.includes(needle)`. -/
def strIncludes (haystack needle : String) : Bool :=
  containsSeq needle.data haystack.data

/-- JS `s.startsWith(p)`. -/
def strStartsWith (s p : String) : Bool :=
  p.data.isPrefixOf s.data

/-- JS `s.endsWith(p)`. -/
def strEndsWith (s p : String) : Bool :=
  p.data.reverse.isPrefixOf s.data.reverse

/-- JS `s.substring(0, n)` (code points rather than UTF-16 units; all
claim inputs are in the Basic Multilingual Plane, where the two agree). -/
def jsSubstringTo (s : String) (n : Nat) : String :=
  String.mk (s.data.take n)

/-- Split a char list on a separator; like JS `String.prototype.split`
with a single-character separator (the empty input yields one empty group). -/
def splitOnChar (sep : Char) : List Char → List (List Char)
  | [] => [[]]
  | c :: rest =>
    if c = sep then [] :: splitOnChar sep rest
    else
      match splitOnChar sep rest with
      | [] => [[c]]
      | g :: gs => (c :: g) :: gs

/-! ## UTF-8 codec (structural, kernel-reducible) -/

/-- UTF-8 encoding of one scalar value. -/
def utf8EncodeChar (c : Char) : List UInt8 :=
  let n := c.toNat
  if n < 0x80 then [UInt8.ofNat n]
  else if n < 0x800 then
    [UInt8.ofNat (0xC0 + n / 0x40), UInt8.ofNat (0x80 + n % 0x40)]
  else if n < 0x10000 then
    [UInt8.ofNat (0xE0 + n / 0x1000), UInt8.ofNat (0x80 + n / 0x40 % 0x40),
     UInt8.ofNat (0x80 + n % 0x40)]
  else
    [UInt8.ofNat (0xF0 + n / 0x40000), UInt8.ofNat (0x80 + n / 0x1000 % 0x40),
     UInt8.ofNat (0x80 + n / 0x40 % 0x40), UInt8.ofNat (0x80 + n % 0x40)]

/-- UTF-8 bytes of a string. -/
def strBytes (s : String) : List UInt8 :=
  s.data.flatMap utf8EncodeChar

/-- UTF-8 continuation byte. -/
def isCont (b : UInt8) : Bool := 0x80 ≤ b && b ≤ 0xBF

/-- Second byte constraint for a 3-byte lead (excludes overlongs and
surrogates). -/
def valid3Second (b1 b2 : UInt8) : Bool :=
  if b1 = 0xE0 then 0xA0 ≤ b2 && b2 ≤ 0xBF
  else if b1 = 0xED then 0x80 ≤ b2 && b2 ≤ 0x9F
  else isCont b2

/-- Second byte constraint for a 4-byte lead (excludes overlongs and
values above U+10FFFF). -/
def valid4Second (b1 b2 : UInt8) : Bool :=
  if b1 = 0xF0 then 0x90 ≤ b2 && b2 ≤ 0xBF
  else if b1 = 0xF4 then 0x80 ≤ b2 && b2 ≤ 0x8F
  else isCont b2

/-- The replacement character U+FFFD. -/
def replChar : Char := Char.ofNat 0xFFFD

/-- Scalar value of a decoded 2-byte sequence. -/
def code2 (b1 b2 : UInt8) : Nat := (b1.toNat - 0xC0) * 0x40 + (b2.toNat - 0x80)

/-- Scalar value of a decoded 3-byte sequence. -/
def code3 (b1 b2 b3 : UInt8) : Nat :=
  (b1.toNat - 0xE0) * 0x1000 + (b2.toNat - 0x80) * 0x40 + (b3.toNat - 0x80)

/-- Scalar value of a decoded 4-byte sequence. -/
def code4 (b1 b2 b3 b4 : UInt8) : Nat :=
  (b1.toNat - 0xF0) * 0x40000 + (b2.toNat - 0x80) * 0x1000 +
    (b3.toNat - 0x80) * 0x40 + (b4.toNat - 0x80)

/-- UTF-8 decoding with U+FFFD replacement on malformed input. -/
def utf8Decode : List UInt8 → List Char
  | b1 :: b2 :: b3 :: b4 :: rest =>
    if b1 < 0x80 then Char.ofNat b1.toNat :: utf8Decode (b2 :: b3 :: b4 :: rest)
    else if 0xC2 ≤ b1 && b1 ≤ 0xDF && isCont b2 then
      Char.ofNat (code2 b1 b2) :: utf8Decode (b3 :: b4 :: rest)
    else if 0xE0 ≤ b1 && b1 ≤ 0xEF && valid3Second b1 b2 && isCont b3 then
      Char.ofNat (code3 b1 b2 b3) :: utf8Decode (b4 :: rest)
    else if 0xF0 ≤ b1 && b1 ≤ 0xF4 && valid4Second b1 b2 && isCont b3 && isCont b4 then
      Char.ofNat (code4 b1 b2 b3 b4) :: utf8Decode rest
    else replChar :: utf8Decode (b2 :: b3 :: b4 :: rest)
  | b1 :: b2 :: b3 :: [] =>
    if b1 < 0x80 then Char.ofNat b1.toNat :: utf8Decode [b2, b3]
    else if 0xC2 ≤ b1 && b1 ≤ 0xDF && isCont b2 then
      Char.ofNat (code2 b1 b2) :: utf8Decode [b3]
    else if 0xE0 ≤ b1 && b1 ≤ 0xEF && valid3Second b1 b2 && isCont b3 then
      [Char.ofNat (code3 b1 b2 b3)]
    else replChar :: utf8Decode [b2, b3]
  | b1 :: b2 :: [] =>
    if b1 < 0x80 then Char.ofNat b1.toNat :: utf8Decode [b2]
    else if 0xC2 ≤ b1 && b1 ≤ 0xDF && isCont b2 then
      [Char.ofNat (code2 b1 b2)]
    else replChar :: utf8Decode [b2]
  | b1 :: [] =>
    if b1 < 0x80 then [Char.ofNat b1.toNat] else [replChar]
  | [] => []

/-! ## The worker's configuration and allow-lists -/

/-- The worker's environment bindings (`type Bindings` in `src/index.ts`). -/
structure Env where
  GITHUB_CLIENT_ID : String
  GITHUB_CLIENT_SECRET : String
  GITLAB_CLIENT_ID : String
  GITLAB_CLIENT_SECRET : String

/-- `ALLOWED_OAUTH_ENDPOINTS` from `src/index.ts`. -/
def ALLOWED_OAUTH_ENDPOINTS : List String :=
  ["https://github.com/login/oauth/access_token",
   "https://gitlab.com/oauth/token",
   "https://bitbucket.org/site/oauth2/access_token"]

/-- `ALLOWED_API_ENDPOINTS` from `src/index.ts`. -/
def ALLOWED_API_ENDPOINTS : List String :=
  ["https://api.github.com/user",
   "https://api.github.com/user/repos",
   "https://gitlab.com/api/v4/user",
   "https://gitlab.com/api/v4/projects",
   "https://api.bitbucket.org/2.0/user",
   "https://api.bitbucket.org/2.0/repositories"]

/-- The CORS `origin` callback from `src/index.ts`:
echo the origin when it ends with `.abhi.now`, equals `https://abhi.now`,
or starts with `http://localhost:`; otherwise the fixed fallback. -/
def corsOrigin (origin : String) : String :=
  if strEndsWith origin ".abhi.now" ||
     origin == "https://abhi.now" ||
     strStartsWith origin "http://localhost:" then
    origin
  else
    "https://g.abhi.now"

/-! ## URLSearchParams -/

namespace URLSearchParams

/-- Value of a hex digit byte, `none` for non-hex. -/
def hexVal (b : UInt8) : Option Nat :=
  if 0x30 ≤ b && b ≤ 0x39 then some (b.toNat - 0x30)
  else if 0x41 ≤ b && b ≤ 0x46 then some (b.toNat - 0x41 + 10)
  else if 0x61 ≤ b && b ≤ 0x66 then some (b.toNat - 0x61 + 10)
  else none

/-- Plus-to-space step of urlencoded decoding on one byte. -/
def decodeByte (b : UInt8) : UInt8 := if b = 0x2B then 0x20 else b

/-- `application/x-www-form-urlencoded` byte decoding:
`+` (0x2B) becomes space, `%hh` becomes the byte `hh`, a `%` not followed by
two hex digits stays literal. -/
def decodeBytes : List UInt8 → List UInt8
  | b :: h1 :: h2 :: rest =>
    if b = 0x25 then
      match hexVal h1, hexVal h2 with
      | some x, some y => UInt8.ofNat (16 * x + y) :: decodeBytes rest
      | _, _ => b :: decodeBytes (h1 :: h2 :: rest)
    else decodeByte b :: decodeBytes (h1 :: h2 :: rest)
  | b :: rest => decodeByte b :: decodeBytes rest
  | [] => []

/-- Decode a name or value: plus/percent decoding, then UTF-8. -/
def decodeComponent (s : String) : String :=
  String.mk (utf8Decode (decodeBytes (strBytes s)))

/-- Bytes serialized verbatim by the urlencoded serializer:
ASCII alphanumerics and `*`, `-`, `.`, `_`. -/
def isUnreservedByte (b : UInt8) : Bool :=
  (0x30 ≤ b && b ≤ 0x39) || (0x41 ≤ b && b ≤ 0x5A) || (0x61 ≤ b && b ≤ 0x7A) ||
  b = 0x2A || b = 0x2D || b = 0x2E || b = 0x5F

/-- Uppercase hex digit for a value below 16. -/
def hexDigitChar (n : Nat) : Char :=
  if n < 10 then Char.ofNat (0x30 + n) else Char.ofNat (0x41 + n - 10)

/-- Encode a name or value for `URLSearchParams.toString`:
space becomes `+`, unreserved bytes stay, all other bytes become `%HH`. -/
def encodeComponent (s : String) : List Char :=
  strBytes s |>.flatMap fun b =>
    if b = 0x20 then [Char.ofNat 0x2B]
    else if isUnreservedByte b then [Char.ofNat b.toNat]
    else [Char.ofNat 0x25, hexDigitChar (b.toNat / 16), hexDigitChar (b.toNat % 16)]

/-- Split a `name=value` segment at the first `=`. -/
def splitFirstEq (seg : List Char) : String × String :=
  let n := seg.takeWhile (fun c => c ≠ '=')
  let r := seg.dropWhile (fun c => c ≠ '=')
  (String.mk n, String.mk (r.drop 1))

/-- `new URLSearchParams(init)`: strip one leading `?`, split on `&`,
skip empty segments, split each at the first `=`, decode both sides. -/
def parse (init : String) : List (String × String) :=
  let s := if strStartsWith init "?" then init.data.drop 1 else init.data
  (splitOnChar '&' s).filterMap fun seg =>
    if seg.isEmpty then none
    else
      let p := splitFirstEq seg
      some (decodeComponent p.1, decodeComponent p.2)

/-- Drop every pair whose name is `k`. -/
def removeAll (l : List (String × String)) (k : String) : List (String × String) :=
  l.filter fun p => p.1 ≠ k

/-- `params.set(k, v)`: overwrite the first pair named `k` in place and drop
the later ones, or append when absent. -/
def set : List (String × String) → String → String → List (String × String)
  | [], k, v => [(k, v)]
  | (k', v') :: rest, k, v =>
    if k' = k then (k, v) :: removeAll rest k
    else (k', v') :: set rest k v

/-- Join serialized pairs with `&`. -/
def joinAmp : List (List Char) → List Char
  | [] => []
  | [x] => x
  | x :: xs => x ++ '&' :: joinAmp xs

/-- `params.toString()`: encode each pair as `name=value` and join with `&`. -/
def serialize (l : List (String × String)) : String :=
  String.mk (joinAmp (l.map fun p => encodeComponent p.1 ++ '=' :: encodeComponent p.2))

end URLSearchParams

/-! ## JSON values

JSON numbers are modelled as integers; fractional and exponent literals are
outside the model (the parser rejects them, and no claim exercises them). -/

inductive Json where
  | null : Json
  | bool (b : Bool) : Json
  | num (n : Int) : Json
  | str (s : String) : Json
  | arr (elems : List Json) : Json
  | obj (fields : List (String × Json)) : Json

namespace Json

/-- JS property read `j.k` on a parsed JSON value: `some` the field value of
an object, `none` (JS `undefined`) otherwise.  `JSON.parse` keeps object
keys unique (last duplicate wins), so first-match lookup is exact. -/
def getField : Json → String → Option Json
  | obj fields, k => fields.lookup k
  | _, _ => none

/-- JS truthiness of a parsed JSON value (`undefined` is handled by
`Option` at the call sites). -/
def truthy : Json → Bool
  | null => false
  | bool b => b
  | num n => n ≠ 0
  | str s => s ≠ ""
  | arr _ => true
  | obj _ => true

/-- `JSON.stringify` escaping of one string character. -/
def escapeChar (c : Char) : List Char :=
  if c = '"' then ['\\', '"']
  else if c = '\\' then ['\\', '\\']
  else if c = Char.ofNat 8 then ['\\', 'b']
  else if c = Char.ofNat 9 then ['\\', 't']
  else if c = Char.ofNat 10 then ['\\', 'n']
  else if c = Char.ofNat 12 then ['\\', 'f']
  else if c = Char.ofNat 13 then ['\\', 'r']
  else if c.toNat < 0x20 then
    ['\\', 'u', '0', '0', URLSearchParams.hexDigitChar (c.toNat / 16),
     URLSearchParams.hexDigitChar (c.toNat % 16)]
  else [c]

/-- `JSON.stringify` of a string literal, including the quotes. -/
def quoteStr (s : String) : List Char :=
  '"' :: s.data.flatMap escapeChar ++ ['"']

mutual

/-- `JSON.stringify` on a parsed JSON value (no `undefined`, no cycles). -/
def stringifyChars : Json → List Char
  | null => ['n', 'u', 'l', 'l']
  | bool true => ['t', 'r', 'u', 'e']
  | bool false => ['f', 'a', 'l', 's', 'e']
  | num n => (toString n).data
  | str s => quoteStr s
  | arr elems => '[' :: stringifyArr elems ++ [']']
  | obj fields => '\x7b' :: stringifyObj fields ++ ['\x7d']

/-- Comma-separated stringified array elements. -/
def stringifyArr : List Json → List Char
  | [] => []
  | [j] => stringifyChars j
  | j :: rest => stringifyChars j ++ ',' :: stringifyArr rest

/-- Comma-separated stringified object members. -/
def stringifyObj : List (String × Json) → List Char
  | [] => []
  | [(k, j)] => quoteStr k ++ ':' :: stringifyChars j
  | (k, j) :: rest => quoteStr k ++ ':' :: stringifyChars j ++ ',' :: stringifyObj rest

end

end Json

/-- `JSON.stringify` as a string-valued function. -/
def jsonStringify (j : Json) : String :=
  String.mk (Json.stringifyChars j)

/-! ## JSON parsing (`JSON.parse` / `response.json()`) -/

namespace JsonParse

/-- JSON insignificant whitespace. -/
def isJsonWs (c : Char) : Bool :=
  c = ' ' || c = Char.ofNat 9 || c = Char.ofNat 10 || c = Char.ofNat 13

/-- Skip insignificant whitespace. -/
def skipWs (l : List Char) : List Char :=
  l.dropWhile isJsonWs

/-- Value of a hex digit character, `none` for non-hex. -/
def hexCharVal (c : Char) : Option Nat :=
  if '0' ≤ c && c ≤ '9' then some (c.toNat - 0x30)
  else if 'A' ≤ c && c ≤ 'F' then some (c.toNat - 0x41 + 10)
  else if 'a' ≤ c && c ≤ 'f' then some (c.toNat - 0x61 + 10)
  else none

/-- Parse the remainder of a JSON string literal (after the opening quote).
Raw control characters are rejected; `\uXXXX` escapes are decoded as single
code units (surrogate pairs are outside the model). -/
def parseStringRest (acc : List Char) : List Char → Option (String × List Char)
  | [] => none
  | c :: rest =>
    if c = '"' then some (String.mk acc.reverse, rest)
    else if c = '\\' then
      match rest with
      | [] => none
      | e :: rest2 =>
        if e = '"' then parseStringRest ('"' :: acc) rest2
        else if e = '\\' then parseStringRest ('\\' :: acc) rest2
        else if e = '/' then parseStringRest ('/' :: acc) rest2
        else if e = 'b' then parseStringRest (Char.ofNat 8 :: acc) rest2
        else if e = 'f' then parseStringRest (Char.ofNat 12 :: acc) rest2
        else if e = 'n' then parseStringRest (Char.ofNat 10 :: acc) rest2
        else if e = 'r' then parseStringRest (Char.ofNat 13 :: acc) rest2
        else if e = 't' then parseStringRest (Char.ofNat 9 :: acc) rest2
        else if e = 'u' then
          match rest2 with
          | h1 :: h2 :: h3 :: h4 :: rest3 =>
            match hexCharVal h1, hexCharVal h2, hexCharVal h3, hexCharVal h4 with
            | some x1, some x2, some x3, some x4 =>
              parseStringRest
                (Char.ofNat (x1 * 0x1000 + x2 * 0x100 + x3 * 16 + x4) :: acc) rest3
            | _, _, _, _ => none
          | _ => none
        else none
    else if c.toNat < 0x20 then none
    else parseStringRest (c :: acc) rest

/-- Parse one or more decimal digits. -/
def parseDigits (acc : Nat) (seen : Bool) : List Char → Option (Nat × List Char)
  | [] => if seen then some (acc, []) else none
  | c :: rest =>
    if '0' ≤ c && c ≤ '9' then parseDigits (acc * 10 + (c.toNat - 0x30)) true rest
    else if seen then some (acc, c :: rest)
    else none

/-- Parse a JSON integer literal: optional minus, no leading zeros;
a following `.`, `e` or `E` (a fractional or exponent form) is outside
the model and rejected. -/
def parseNumber (l : List Char) : Option (Json × List Char) :=
  let (neg, l') := match l with
    | c :: rest => if c = '-' then (true, rest) else (false, l)
    | [] => (false, [])
  match parseDigits 0 false l' with
  | none => none
  | some (n, rest) =>
    match l' with
    | '0' :: c :: _ => if '0' ≤ c && c ≤ '9' then none else
        match rest with
        | c' :: _ => if c' = '.' || c' = 'e' || c' = 'E' then none
            else some (Json.num (if neg then -(n : Int) else n), rest)
        | [] => some (Json.num (if neg then -(n : Int) else n), rest)
    | _ =>
      match rest with
      | c' :: _ => if c' = '.' || c' = 'e' || c' = 'E' then none
          else some (Json.num (if neg then -(n : Int) else n), rest)
      | [] => some (Json.num (if neg then -(n : Int) else n), rest)

/-- Insert an object member with JS duplicate-key semantics: an existing
key keeps its position and gets the new value, otherwise append. -/
def insertField : List (String × Json) → String → Json → List (String × Json)
  | [], k, j => [(k, j)]
  | (k', j') :: rest, k, j =>
    if k' = k then (k, j) :: rest
    else (k', j') :: insertField rest k j

mutual

/-- Parse one JSON value (fuel-indexed recursive descent). -/
def parseVal : Nat → List Char → Option (Json × List Char)
  | 0, _ => none
  | fuel + 1, l =>
    match skipWs l with
    | [] => none
    | c :: rest =>
      if c = 'n' then
        match rest with
        | 'u' :: 'l' :: 'l' :: rest2 => some (Json.null, rest2)
        | _ => none
      else if c = 't' then
        match rest with
        | 'r' :: 'u' :: 'e' :: rest2 => some (Json.bool true, rest2)
        | _ => none
      else if c = 'f' then
        match rest with
        | 'a' :: 'l' :: 's' :: 'e' :: rest2 => some (Json.bool false, rest2)
        | _ => none
      else if c = '"' then
        match parseStringRest [] rest with
        | some (s, rest2) => some (Json.str s, rest2)
        | none => none
      else if c = '[' then
        match skipWs rest with
        | ']' :: rest2 => some (Json.arr [], rest2)
        | _ => parseArrItems fuel [] rest
      else if c = '\x7b' then
        match skipWs rest with
        | '\x7d' :: rest2 => some (Json.obj [], rest2)
        | _ => parseObjItems fuel [] rest
      else parseNumber (c :: rest)

/-- Parse array elements after `[`, accumulating in reverse. -/
def parseArrItems : Nat → List Json → List Char → Option (Json × List Char)
  | 0, _, _ => none
  | fuel + 1, acc, l =>
    match parseVal fuel l with
    | none => none
    | some (j, rest) =>
      match skipWs rest with
      | ',' :: rest2 => parseArrItems fuel (j :: acc) rest2
      | ']' :: rest2 => some (Json.arr (j :: acc).reverse, rest2)
      | _ => none

/-- Parse object members after `\x7b`, accumulating with JS duplicate-key
semantics (an existing key is overwritten in place). -/
def parseObjItems : Nat → List (String × Json) → List Char → Option (Json × List Char)
  | 0, _, _ => none
  | fuel + 1, acc, l =>
    match skipWs l with
    | '"' :: rest =>
      match parseStringRest [] rest with
      | none => none
      | some (k, rest2) =>
        match skipWs rest2 with
        | ':' :: rest3 =>
          match parseVal fuel rest3 with
          | none => none
          | some (j, rest4) =>
            match skipWs rest4 with
            | ',' :: rest5 => parseObjItems fuel (insertField acc k j) rest5
            | '\x7d' :: rest5 => some (Json.obj (insertField acc k j), rest5)
            | _ => none
        | _ => none
    | _ => none

end

end JsonParse

/-- `JSON.parse` on the model: parse one value with leading/trailing
whitespace only; `none` models a thrown `SyntaxError`. -/
def jsonParse (s : String) : Option Json :=
  match JsonParse.parseVal (s.length + 1) s.data with
  | some (j, rest) => if JsonParse.skipWs rest = [] then some j else none
  | none => none

/-- JS property read `data.k` on a parsed JSON value: reading a property of
`null` throws a TypeError (`Except.error`); on any other value it yields the
object field (`some`) or `undefined` (`none`) without throwing.
(`JSON.parse` never produces `undefined`, and property access on numbers,
strings, booleans and arrays boxes and yields `undefined` for absent
fields.) -/
def jsGetProp : Json → String → Except Unit (Option Json)
  | Json.null, _ => Except.error ()
  | Json.obj fields, k => Except.ok (fields.lookup k)
  | _, _ => Except.ok none

/-! ## The relay handlers -/

/-- The outbound `fetch` a handler issues: URL, method, headers, body. -/
structure FetchCall where
  url : String
  method : String
  headers : List (String × String)
  body : Option String

/-- An upstream HTTP response as the handlers observe it:
`response.status`, `response.headers.get("content-type")`, and the body
text (`response.text()`; `response.json()` is `jsonParse` of it). -/
structure UpstreamResponse where
  status : Nat
  contentType : Option String
  bodyText : String

/-- `response.ok`: status in the 2xx range. -/
def UpstreamResponse.ok (r : UpstreamResponse) : Bool :=
  200 ≤ r.status && r.status ≤ 299

/-- What the world does with the handler's single outbound fetch:
either a response arrives, or `fetch` (or reading its body) throws an
error whose `.message` is the carried string. -/
inductive FetchOutcome where
  | ok (resp : UpstreamResponse) : FetchOutcome
  | throws (errMsg : String) : FetchOutcome

/-- A handler's observable behaviour: the outbound fetch it attempted
(`none` when it failed closed; the handlers fetch at most once by
construction), the HTTP status, and the JSON payload given to `c.json`. -/
structure HandlerResult where
  fetched : Option FetchCall
  status : Nat
  body : Json

/-- Credential injection of `POST /oauth` (`src/index.ts` lines 76-83):
overwrite `client_id`/`client_secret` when the target URL contains
`github.com`, else when it contains `gitlab.com`; otherwise leave the
parsed form body untouched. -/
def oauthInject (env : Env) (targetUrl : String)
    (params : List (String × String)) : List (String × String) :=
  if strIncludes targetUrl "github.com" then
    URLSearchParams.set
      (URLSearchParams.set params "client_id" env.GITHUB_CLIENT_ID)
      "client_secret" env.GITHUB_CLIENT_SECRET
  else if strIncludes targetUrl "gitlab.com" then
    URLSearchParams.set
      (URLSearchParams.set params "client_id" env.GITLAB_CLIENT_ID)
      "client_secret" env.GITLAB_CLIENT_SECRET
  else params

/-- `app.post("/oauth")` from `src/index.ts`.  `urlQ` is
`c.req.query("url")`, `bodyText` is `await c.req.text()`, `outcome` is what
the single outbound fetch returns, and `parseErrMsg` is the `.message` of
the runtime exception thrown while handling the upstream body — the
`SyntaxError` from `response.json()` on a non-JSON body, or the `TypeError`
from the `(data as { error?: string }).error` read (line 98) when a 2xx
response's body parses to JSON `null` (`!response.ok ||` short-circuits the
read away on non-2xx responses).  Both messages are runtime-dependent
strings, and at most one such exception occurs per request. -/
def oauthPost (env : Env) (urlQ : Option String) (bodyText : String)
    (outcome : FetchOutcome) (parseErrMsg : String) : HandlerResult :=
  match urlQ with
  | none =>
    { fetched := none, status := 400,
      body := Json.obj [("error", Json.str "Invalid or unauthorized URL")] }
  | some targetUrl =>
    if targetUrl == "" || !(ALLOWED_OAUTH_ENDPOINTS.contains targetUrl) then
      { fetched := none, status := 400,
        body := Json.obj [("error", Json.str "Invalid or unauthorized URL")] }
    else
      let params := oauthInject env targetUrl (URLSearchParams.parse bodyText)
      let call : FetchCall :=
        { url := targetUrl, method := "POST",
          headers := [("Content-Type", "application/x-www-form-urlencoded"),
                      ("Accept", "application/json")],
          body := some (URLSearchParams.serialize params) }
      match outcome with
      | .throws m =>
        { fetched := some call, status := 500,
          body := Json.obj [("error", Json.str "Proxy request failed"),
                            ("details", Json.str m)] }
      | .ok resp =>
        match jsonParse resp.bodyText with
        | none =>
          { fetched := some call, status := 500,
            body := Json.obj [("error", Json.str "Proxy request failed"),
                              ("details", Json.str parseErrMsg)] }
        | some data =>
          if resp.ok then
            match jsGetProp data "error" with
            | Except.error _ =>
              { fetched := some call, status := 500,
                body := Json.obj [("error", Json.str "Proxy request failed"),
                                  ("details", Json.str parseErrMsg)] }
            | Except.ok _ =>
              { fetched := some call, status := resp.status, body := data }
          else
            { fetched := some call, status := resp.status, body := data }

/-- The `Accept`/`User-Agent`/`Authorization` header object built by the
`/apis` handlers; the `Authorization` entry is added only when the inbound
header is present and non-empty (JS truthiness of `authHeader`). -/
def apisHeaders (base : List (String × String)) (authHeader : Option String) :
    List (String × String) :=
  match authHeader with
  | some a => if a == "" then base else base ++ [("Authorization", a)]
  | none => base

/-- `app.get("/apis")` from `src/index.ts`: validate, forward, parse the
body as JSON, and relay it with the upstream status. -/
def apisGet (urlQ : Option String) (authHeader : Option String)
    (outcome : FetchOutcome) (parseErrMsg : String) : HandlerResult :=
  match urlQ with
  | none =>
    { fetched := none, status := 400,
      body := Json.obj [("error", Json.str "Missing url parameter")] }
  | some targetUrl =>
    if targetUrl == "" then
      { fetched := none, status := 400,
        body := Json.obj [("error", Json.str "Missing url parameter")] }
    else if !(ALLOWED_API_ENDPOINTS.any fun endpoint => strStartsWith targetUrl endpoint) then
      { fetched := none, status := 400,
        body := Json.obj [("error", Json.str "Invalid or unauthorized URL")] }
    else
      let call : FetchCall :=
        { url := targetUrl, method := "GET",
          headers := apisHeaders [("Accept", "application/json")] authHeader,
          body := none }
      match outcome with
      | .throws m =>
        { fetched := some call, status := 500,
          body := Json.obj [("error", Json.str "API request failed"),
                            ("details", Json.str m)] }
      | .ok resp =>
        match jsonParse resp.bodyText with
        | none =>
          { fetched := some call, status := 500,
            body := Json.obj [("error", Json.str "API request failed"),
                              ("details", Json.str parseErrMsg)] }
        | some data =>
          { fetched := some call, status := resp.status, body := data }

/-- The `|| JSON.stringify(data)` half of `data.message ||
JSON.stringify(data)`, applied to the result of a `data.message` read that
did not throw: the `message` value when present and truthy, else the
stringified body. -/
def messageOrStringify (mOpt : Option Json) (data : Json) : Json :=
  match mOpt with
  | some m => if m.truthy then m else Json.str (jsonStringify data)
  | none => Json.str (jsonStringify data)

/-- `app.get("/apis")` from the latest variant (`src/unnamed/part_000`):
validate, forward (with a fixed `User-Agent`), read the body as text,
require a JSON content type, parse, surface upstream failures with the
upstream status, and relay the parsed body on success.  On a non-2xx
response the `data.message` read (line 200) throws a TypeError when the
body parsed to JSON `null`; `thrownErrMsg` is that exception's
runtime-dependent `.message`, surfaced by the catch as `details`. -/
def apisGetLatest (urlQ : Option String) (authHeader : Option String)
    (outcome : FetchOutcome) (thrownErrMsg : String) : HandlerResult :=
  match urlQ with
  | none =>
    { fetched := none, status := 400,
      body := Json.obj [("error", Json.str "Missing url parameter")] }
  | some targetUrl =>
    if targetUrl == "" then
      { fetched := none, status := 400,
        body := Json.obj [("error", Json.str "Missing url parameter")] }
    else if !(ALLOWED_API_ENDPOINTS.any fun endpoint => strStartsWith targetUrl endpoint) then
      { fetched := none, status := 400,
        body := Json.obj [("error", Json.str "Invalid or unauthorized URL")] }
    else
      let call : FetchCall :=
        { url := targetUrl, method := "GET",
          headers := apisHeaders
            [("Accept", "application/json"), ("User-Agent", "GitDigest-App/1.0")]
            authHeader,
          body := none }
      match outcome with
      | .throws m =>
        { fetched := some call, status := 500,
          body := Json.obj [("error", Json.str "API request failed"),
                            ("details", Json.str m)] }
      | .ok resp =>
        let text := resp.bodyText
        let ctOk := match resp.contentType with
          | none => false
          | some ct => strIncludes ct "application/json"
        if !ctOk then
          { fetched := some call, status := 500,
            body := Json.obj [("error", Json.str "Invalid response type"),
                              ("details", Json.str (jsSubstringTo text 500)),
                              ("status", Json.num resp.status)] }
        else
          match jsonParse text with
          | none =>
            { fetched := some call, status := 500,
              body := Json.obj [("error", Json.str "Failed to parse JSON"),
                                ("details", Json.str (jsSubstringTo text 500))] }
          | some data =>
            if !resp.ok then
              match jsGetProp data "message" with
              | Except.error _ =>
                { fetched := some call, status := 500,
                  body := Json.obj [("error", Json.str "API request failed"),
                                    ("details", Json.str thrownErrMsg)] }
              | Except.ok mOpt =>
                { fetched := some call, status := resp.status,
                  body := Json.obj [("error", Json.str "API request failed"),
                                    ("details", messageOrStringify mOpt data),
                                    ("status", Json.num resp.status)] }
            else
              { fetched := some call, status := resp.status, body := data }

/-- `app.get("/config")` from `src/index.ts`: the client IDs, nothing else. -/
def getConfig (env : Env) : HandlerResult :=
  { fetched := none, status := 200,
    body := Json.obj
      [("github", Json.obj [("clientId", Json.str env.GITHUB_CLIENT_ID)]),
       ("gitlab", Json.obj [("clientId", Json.str env.GITLAB_CLIENT_ID)])] }

/-! ## Helper lemmas about `URLSearchParams.set` -/

namespace URLSearchParams

theorem removeAll_filter_self (l : List (String × String)) (k : String) :
    (removeAll l k).filter (fun p => p.1 == k) = [] := by
  simp only [removeAll, List.filter_filter]
  rw [List.filter_eq_nil_iff]
  intro a _
  by_cases hk : a.1 = k <;> simp [hk]

theorem set_filter_self (l : List (String × String)) (k v : String) :
    ((set l k v).filter (fun p => p.1 == k)).map (fun p => p.2) = [v] := by
  induction l with
  | nil => simp [set]
  | cons hd tl ih =>
    by_cases hk : hd.1 = k
    · simp [set, hk, removeAll_filter_self]
    · simp [set, hk, ih]

theorem removeAll_filter_other (l : List (String × String)) (k k2 : String)
    (h : k2 ≠ k) :
    (removeAll l k).filter (fun p => p.1 == k2) = l.filter (fun p => p.1 == k2) := by
  simp only [removeAll, List.filter_filter]
  refine List.filter_congr fun a _ => ?_
  by_cases hk2 : a.1 = k2
  · have hne : ¬ a.1 = k := by rw [hk2]; exact h
    simp [hk2, hne, h]
  · simp [hk2]

theorem set_filter_other (l : List (String × String)) (k k2 v : String)
    (h : k2 ≠ k) :
    (set l k v).filter (fun p => p.1 == k2) = l.filter (fun p => p.1 == k2) := by
  have hkk2 : ¬ k = k2 := fun he => h he.symm
  induction l with
  | nil => simp [set, hkk2]
  | cons hd tl ih =>
    by_cases hk : hd.1 = k
    · have hk2 : ¬ hd.1 = k2 := by rw [hk]; exact hkk2
      simp [set, hk, hk2, hkk2, removeAll_filter_other tl k k2 h]
    · by_cases hk2 : hd.1 = k2
      · obtain ⟨a, b⟩ := hd
        simp only [] at hk hk2
        subst hk2
        simp [set, hk, h, ih]
      · simp [set, hk, hk2, ih]

end URLSearchParams

end CorsRelay

section SanityChecks
open CorsRelay CorsRelay.URLSearchParams
example : parse "a=b&c=d%20e" = [("a", "b"), ("c", "d e")] := by decide
example : parse "a=1&a=2&b=3" = [("a", "1"), ("a", "2"), ("b", "3")] := by decide
example : set (parse "a=1&a=2&b=3") "a" "x" = [("a", "x"), ("b", "3")] := by decide
example : serialize [("a b", "c&d")] = "a+b=c%26d" := by decide
example : strIncludes "https://github.com/login" "github.com" = true := by decide
example : strEndsWith "https://app.abhi.now" ".abhi.now" = true := by decide
example : corsOrigin "https://evil.example" = "https://g.abhi.now" := by decide
example : jsonParse "\x7b\"message\":\"\"\x7d" = some (Json.obj [("message", Json.str "")]) := rfl
example : jsonParse " \x7b \"a\" : [1, -2, true, null, \"x\"] \x7d " =
    some (Json.obj [("a", Json.arr [Json.num 1, Json.num (-2), Json.bool true, Json.null, Json.str "x"])]) := rfl
example : jsonParse "\x7b\"a\":1,\"a\":2\x7d" = some (Json.obj [("a", Json.num 2)]) := rfl
example : jsonParse "not json" = none := rfl
example : jsonParse "\x7b\"error\":\"bad_verification_code\"\x7d" =
    some (Json.obj [("error", Json.str "bad_verification_code")]) := rfl
example : jsonStringify (Json.obj [("message", Json.str "")]) = "\x7b\"message\":\"\"\x7d" := rfl
example : (Json.obj [("a", Json.num 1)]).getField "a" = some (Json.num 1) := rfl
example : Json.truthy (Json.str "") = false := rfl
example :
    (oauthPost ⟨"gid", "gsec", "lid", "lsec"⟩
      (some "https://github.com/login/oauth/access_token") "code=abc&client_id=fake"
      (.throws "boom") "pe").fetched =
    some { url := "https://github.com/login/oauth/access_token", method := "POST",
           headers := [("Content-Type", "application/x-www-form-urlencoded"),
                       ("Accept", "application/json")],
           body := some "code=abc&client_id=gid&client_secret=gsec" } := rfl
example :
    (apisGetLatest (some "https://api.github.com/user") (some "Bearer t")
      (.ok ⟨404, some "application/json", "\x7b\"message\":\"Not Found\"\x7d"⟩)
      "typeerror").body =
    Json.obj [("error", Json.str "API request failed"),
              ("details", Json.str "Not Found"), ("status", Json.num 404)] := rfl
example :
    (apisGetLatest (some "https://api.github.com/user") none
      (.ok ⟨200, some "text/html", "<html>"⟩) "typeerror").status = 500 := rfl
example :
    (apisGetLatest (some "https://api.github.com/user") none
      (.ok ⟨404, some "application/json", "null"⟩) "typeerror").body =
    Json.obj [("error", Json.str "API request failed"),
              ("details", Json.str "typeerror")] := rfl
example :
    (oauthPost ⟨"gid", "gsec", "lid", "lsec"⟩
      (some "https://github.com/login/oauth/access_token") "code=abc"
      (.ok ⟨200, some "application/json", "null"⟩) "typeerror").status = 500 := rfl
example :
    (oauthPost ⟨"gid", "gsec", "lid", "lsec"⟩
      (some "https://github.com/login/oauth/access_token") "code=abc"
      (.ok ⟨404, some "application/json", "null"⟩) "typeerror").status = 404 := rfl
end SanityChecks

open CorsRelay

/-! ## Claims -/

/-- C1: for every `POST /oauth` request whose `url` query parameter is absent
or is not an exact member of the OAuth allow-list, the handler returns
HTTP 400 with the structured error payload and performs no outbound fetch. -/
theorem C1_oauth_rejects_unlisted (env : Env) (urlQ : Option String)
    (bodyText : String) (outcome : FetchOutcome) (parseErrMsg : String)
    (h : ∀ t, urlQ = some t → ALLOWED_OAUTH_ENDPOINTS.contains t = false) :
    oauthPost env urlQ bodyText outcome parseErrMsg =
      { fetched := none, status := 400,
        body := Json.obj [("error", Json.str "Invalid or unauthorized URL")] } := by
  cases urlQ with
  | none => rfl
  | some t =>
    have hc : t ∉ ALLOWED_OAUTH_ENDPOINTS := by simpa using h t rfl
    simp [oauthPost, hc]

/-- C1 witness: `https://evil.example/token` is not allow-listed, so the
handler returns 400 and never fetches. -/
theorem C1_oauth_rejects_unlisted_witness :
    (∀ t, (some "https://evil.example/token" : Option String) = some t →
        ALLOWED_OAUTH_ENDPOINTS.contains t = false) ∧
    oauthPost ⟨"gid", "gsec", "lid", "lsec"⟩ (some "https://evil.example/token")
        "code=abc" (.throws "boom") "parse error" =
      { fetched := none, status := 400,
        body := Json.obj [("error", Json.str "Invalid or unauthorized URL")] } :=
  ⟨fun t ht => by injection ht with h2; subst h2; rfl,
   C1_oauth_rejects_unlisted ⟨"gid", "gsec", "lid", "lsec"⟩
     (some "https://evil.example/token") "code=abc" (.throws "boom") "parse error"
     (fun t ht => by injection ht with h2; subst h2; rfl)⟩

/-- C2: for every `GET /apis` request, a missing `url` query parameter yields
HTTP 400 with the fixed error string, and a `url` that starts with no entry
of the API allow-list yields HTTP 400; in both cases no outbound fetch is
issued. -/
theorem C2_apis_rejects_unlisted (urlQ authHeader : Option String)
    (outcome : FetchOutcome) (parseErrMsg : String)
    (h : ∀ t, urlQ = some t →
        (ALLOWED_API_ENDPOINTS.any fun endpoint => strStartsWith t endpoint) = false) :
    (apisGet urlQ authHeader outcome parseErrMsg).status = 400 ∧
    (apisGet urlQ authHeader outcome parseErrMsg).fetched = none ∧
    (urlQ = none → (apisGet urlQ authHeader outcome parseErrMsg).body =
        Json.obj [("error", Json.str "Missing url parameter")]) := by
  cases urlQ with
  | none => exact ⟨rfl, rfl, fun _ => rfl⟩
  | some t =>
    have hc := h t rfl
    by_cases ht : t = ""
    · subst ht
      exact ⟨rfl, rfl, fun hn => nomatch hn⟩
    · refine ⟨?_, ?_, fun hn => nomatch hn⟩ <;> simp [apisGet, hc, ht]

/-- C2 witness: a missing `url` parameter is rejected with the fixed
message and no fetch; the hypothesis holds vacuously. -/
theorem C2_apis_rejects_unlisted_witness :
    (∀ t, (none : Option String) = some t →
        (ALLOWED_API_ENDPOINTS.any fun endpoint => strStartsWith t endpoint) = false) ∧
    ((apisGet none (some "Bearer tok") (.throws "boom") "parse error").status = 400 ∧
     (apisGet none (some "Bearer tok") (.throws "boom") "parse error").fetched = none ∧
     ((none : Option String) = none →
       (apisGet none (some "Bearer tok") (.throws "boom") "parse error").body =
         Json.obj [("error", Json.str "Missing url parameter")])) :=
  ⟨fun _ ht => (nomatch ht),
   C2_apis_rejects_unlisted none (some "Bearer tok") (.throws "boom") "parse error"
     (fun _ ht => (nomatch ht))⟩

/-- C4: the `/config` response holds exactly the GitHub and GitLab client
IDs and no secret; it is identical across any two configurations that agree
on the client IDs but differ arbitrarily in the client secrets. -/
theorem C4_config_independent_of_secrets
    (gid gsec gsec' lid lsec lsec' : String) :
    getConfig ⟨gid, gsec, lid, lsec⟩ = getConfig ⟨gid, gsec', lid, lsec'⟩ ∧
    (getConfig ⟨gid, gsec, lid, lsec⟩).body =
      Json.obj [("github", Json.obj [("clientId", Json.str gid)]),
                ("gitlab", Json.obj [("clientId", Json.str lid)])] :=
  ⟨rfl, rfl⟩

/-- C5: the CORS origin resolver echoes the origin exactly when it ends
with `.abhi.now`, equals `https://abhi.now`, or starts with
`http://localhost:`; every other origin maps to the fixed fallback
`https://g.abhi.now`; in particular on the three named origins. -/
theorem C5_cors_origin_resolver (origin : String) :
    (corsOrigin origin = origin ↔
      (strEndsWith origin ".abhi.now" || origin == "https://abhi.now" ||
        strStartsWith origin "http://localhost:") = true) ∧
    ((strEndsWith origin ".abhi.now" || origin == "https://abhi.now" ||
        strStartsWith origin "http://localhost:") = false →
      corsOrigin origin = "https://g.abhi.now") ∧
    corsOrigin "https://app.abhi.now" = "https://app.abhi.now" ∧
    corsOrigin "http://localhost:5173" = "http://localhost:5173" ∧
    corsOrigin "https://evil.example" = "https://g.abhi.now" := by
  have hecho : ∀ hb : (strEndsWith origin ".abhi.now" || origin == "https://abhi.now" ||
      strStartsWith origin "http://localhost:") = true, corsOrigin origin = origin := by
    intro hb
    simp [corsOrigin, hb]
  have hfall : ∀ hb : (strEndsWith origin ".abhi.now" || origin == "https://abhi.now" ||
      strStartsWith origin "http://localhost:") = false,
      corsOrigin origin = "https://g.abhi.now" := by
    intro hb
    simp [corsOrigin, hb]
  refine ⟨⟨fun he => ?_, hecho⟩, hfall, rfl, rfl, rfl⟩
  rcases Bool.eq_false_or_eq_true (strEndsWith origin ".abhi.now" ||
      origin == "https://abhi.now" || strStartsWith origin "http://localhost:") with hb | hb
  · exact hb
  · rw [hfall hb] at he
    subst he
    exact absurd hb (by decide)

/-- C5 witness: `https://evil.example` fails the allow condition and gets
the fixed fallback origin. -/
theorem C5_cors_origin_resolver_witness :
    (strEndsWith "https://evil.example" ".abhi.now" ||
      "https://evil.example" == "https://abhi.now" ||
      strStartsWith "https://evil.example" "http://localhost:") = false ∧
    corsOrigin "https://evil.example" = "https://g.abhi.now" :=
  ⟨by decide, (C5_cors_origin_resolver "https://evil.example").2.1 (by decide)⟩

/-- For an allow-listed (hence non-empty) OAuth target, `POST /oauth` issues
exactly one outbound fetch: a POST to the target with the fixed headers and
the re-serialized, possibly credential-injected form body. -/
theorem oauthPost_fetch_of_allowed (env : Env) (bodyText : String)
    (outcome : FetchOutcome) (parseErrMsg : String) (t : String)
    (htne : ¬ t = "") (hmem : t ∈ ALLOWED_OAUTH_ENDPOINTS) :
    (oauthPost env (some t) bodyText outcome parseErrMsg).fetched =
      some { url := t, method := "POST",
             headers := [("Content-Type", "application/x-www-form-urlencoded"),
                         ("Accept", "application/json")],
             body := some (URLSearchParams.serialize
               (oauthInject env t (URLSearchParams.parse bodyText))) } := by
  cases outcome with
  | throws m => simp [oauthPost, htne, hmem]
  | ok resp =>
    cases hj : jsonParse resp.bodyText with
    | none => simp [oauthPost, htne, hmem, hj]
    | some data =>
      cases ho : resp.ok <;> cases hg : jsGetProp data "error" <;>
        simp [oauthPost, htne, hmem, hj, ho, hg]

/-- C3: for every `POST /oauth` request targeted at the GitHub token
endpoint, the forwarded body carries exactly the configured GitHub
`client_id` and `client_secret` (one occurrence each), overwriting whatever
the caller put in those fields. -/
theorem C3_oauth_github_injection (env : Env) (bodyText : String)
    (outcome : FetchOutcome) (parseErrMsg : String) :
    (oauthPost env (some "https://github.com/login/oauth/access_token") bodyText
        outcome parseErrMsg).fetched =
      some { url := "https://github.com/login/oauth/access_token", method := "POST",
             headers := [("Content-Type", "application/x-www-form-urlencoded"),
                         ("Accept", "application/json")],
             body := some (URLSearchParams.serialize
               (oauthInject env "https://github.com/login/oauth/access_token"
                 (URLSearchParams.parse bodyText))) } ∧
    ((oauthInject env "https://github.com/login/oauth/access_token"
        (URLSearchParams.parse bodyText)).filter
          (fun p => p.1 == "client_id")).map (fun p => p.2) =
      [env.GITHUB_CLIENT_ID] ∧
    ((oauthInject env "https://github.com/login/oauth/access_token"
        (URLSearchParams.parse bodyText)).filter
          (fun p => p.1 == "client_secret")).map (fun p => p.2) =
      [env.GITHUB_CLIENT_SECRET] := by
  have hg : strIncludes "https://github.com/login/oauth/access_token" "github.com" = true := by
    decide
  refine ⟨oauthPost_fetch_of_allowed env bodyText outcome parseErrMsg _ (by decide) (by decide),
    ?_, ?_⟩
  · simp only [oauthInject, hg, if_true]
    rw [URLSearchParams.set_filter_other _ "client_secret" "client_id" _ (by decide)]
    exact URLSearchParams.set_filter_self _ _ _
  · simp only [oauthInject, hg, if_true]
    exact URLSearchParams.set_filter_self _ _ _

/-- On any parsed JSON value other than `null`, the JS property read does
not throw and yields exactly the object-field lookup. -/
theorem jsGetProp_eq_getField (data : Json) (k : String) (h : ¬ data = Json.null) :
    jsGetProp data k = Except.ok (data.getField k) := by
  cases data <;> simp [jsGetProp, Json.getField] at h ⊢

/-- C8 counterexample: an allow-listed target answering 2xx with the
parseable JSON body `null`.  The claim says that body is relayed with
status 200; the code instead evaluates `(data as { error?: string }).error`
on `null` (index.ts line 98), which throws a TypeError, and the catch
returns HTTP 500 with the proxy error payload. -/
theorem C8_counterexample_null_body :
    jsonParse "null" = some Json.null ∧
    ALLOWED_OAUTH_ENDPOINTS.contains "https://github.com/login/oauth/access_token" = true ∧
    (oauthPost ⟨"gid", "gsec", "lid", "lsec"⟩
        (some "https://github.com/login/oauth/access_token") "code=abc"
        (.ok ⟨200, some "application/json", "null"⟩)
        "Cannot read properties of null (reading 'error')").status = 500 ∧
    ¬ (oauthPost ⟨"gid", "gsec", "lid", "lsec"⟩
        (some "https://github.com/login/oauth/access_token") "code=abc"
        (.ok ⟨200, some "application/json", "null"⟩)
        "Cannot read properties of null (reading 'error')").status = 200 ∧
    (oauthPost ⟨"gid", "gsec", "lid", "lsec"⟩
        (some "https://github.com/login/oauth/access_token") "code=abc"
        (.ok ⟨200, some "application/json", "null"⟩)
        "Cannot read properties of null (reading 'error')").body =
      Json.obj [("error", Json.str "Proxy request failed"),
                ("details", Json.str "Cannot read properties of null (reading 'error')")] :=
  ⟨rfl, by decide, rfl, by decide, rfl⟩

/-- C8 (amended): for every `POST /oauth` request with an allow-listed
target whose upstream responds with a parseable JSON body, the handler
relays that JSON body unchanged with the upstream's own status code —
including non-2xx statuses and bodies carrying an `error` field — except
when a 2xx response's body parses to JSON `null`: there the `error`-field
read throws and the handler returns HTTP 500 with the proxy error payload
and the exception's message as `details`. -/
theorem C8_oauth_relays_upstream (env : Env) (t bodyText parseErrMsg : String)
    (resp : UpstreamResponse) (data : Json)
    (h1 : ALLOWED_OAUTH_ENDPOINTS.contains t = true)
    (h2 : jsonParse resp.bodyText = some data) :
    ((resp.ok = false ∨ ¬ data = Json.null) →
      (oauthPost env (some t) bodyText (.ok resp) parseErrMsg).status = resp.status ∧
      (oauthPost env (some t) bodyText (.ok resp) parseErrMsg).body = data) ∧
    (resp.ok = true → data = Json.null →
      (oauthPost env (some t) bodyText (.ok resp) parseErrMsg).status = 500 ∧
      (oauthPost env (some t) bodyText (.ok resp) parseErrMsg).body =
        Json.obj [("error", Json.str "Proxy request failed"),
                  ("details", Json.str parseErrMsg)]) := by
  have htne : ¬ t = "" := by
    intro he
    subst he
    exact absurd h1 (by decide)
  have hmem : t ∈ ALLOWED_OAUTH_ENDPOINTS := by simpa using h1
  constructor
  · intro hcase
    rcases hcase with hko | hnn
    · constructor <;> simp [oauthPost, htne, hmem, h2, hko]
    · cases ho : resp.ok with
      | false => constructor <;> simp [oauthPost, htne, hmem, h2, ho]
      | true =>
        have hg := jsGetProp_eq_getField data "error" hnn
        constructor <;> simp [oauthPost, htne, hmem, h2, ho, hg]
  · intro ho hn
    subst hn
    constructor <;> simp [oauthPost, htne, hmem, h2, ho, jsGetProp]

/-- C8 witness: an upstream 400 with a JSON error body (non-2xx, hence the
`error` read is short-circuited away) is relayed verbatim, status
included. -/
theorem C8_oauth_relays_upstream_witness :
    ALLOWED_OAUTH_ENDPOINTS.contains "https://github.com/login/oauth/access_token" = true ∧
    jsonParse "\x7b\"error\":\"bad_verification_code\"\x7d" =
      some (Json.obj [("error", Json.str "bad_verification_code")]) ∧
    ((⟨400, some "application/json",
        "\x7b\"error\":\"bad_verification_code\"\x7d"⟩ : UpstreamResponse).ok = false ∨
      ¬ Json.obj [("error", Json.str "bad_verification_code")] = Json.null) ∧
    (oauthPost ⟨"gid", "gsec", "lid", "lsec"⟩
        (some "https://github.com/login/oauth/access_token") "code=abc"
        (.ok ⟨400, some "application/json", "\x7b\"error\":\"bad_verification_code\"\x7d"⟩)
        "parse error").status = 400 ∧
    (oauthPost ⟨"gid", "gsec", "lid", "lsec"⟩
        (some "https://github.com/login/oauth/access_token") "code=abc"
        (.ok ⟨400, some "application/json", "\x7b\"error\":\"bad_verification_code\"\x7d"⟩)
        "parse error").body = Json.obj [("error", Json.str "bad_verification_code")] :=
  ⟨by decide, rfl, Or.inl (by decide),
   ((C8_oauth_relays_upstream ⟨"gid", "gsec", "lid", "lsec"⟩
       "https://github.com/login/oauth/access_token" "code=abc" "parse error"
       ⟨400, some "application/json", "\x7b\"error\":\"bad_verification_code\"\x7d"⟩
       (Json.obj [("error", Json.str "bad_verification_code")]) (by decide) rfl).1
     (Or.inl (by decide))).1,
   ((C8_oauth_relays_upstream ⟨"gid", "gsec", "lid", "lsec"⟩
       "https://github.com/login/oauth/access_token" "code=abc" "parse error"
       ⟨400, some "application/json", "\x7b\"error\":\"bad_verification_code\"\x7d"⟩
       (Json.obj [("error", Json.str "bad_verification_code")]) (by decide) rfl).1
     (Or.inl (by decide))).2⟩

/-- C9: when the outbound fetch of either relay handler throws, the handler
returns HTTP 500 with its fixed error string and the exception's message as
`details`, after exactly one fetch attempt; when the upstream body fails to
parse as JSON, the same 500 shape carries the parse error's message.  A
handler result holds at most one fetch by construction, and no retry
exists. -/
theorem C9_exceptions_terminal (env : Env) (tOauth tApi bodyText errMsg parseErrMsg : String)
    (authHeader : Option String)
    (h1 : ALLOWED_OAUTH_ENDPOINTS.contains tOauth = true)
    (h2 : (ALLOWED_API_ENDPOINTS.any fun endpoint => strStartsWith tApi endpoint) = true) :
    (oauthPost env (some tOauth) bodyText (.throws errMsg) parseErrMsg).status = 500 ∧
    (oauthPost env (some tOauth) bodyText (.throws errMsg) parseErrMsg).body =
      Json.obj [("error", Json.str "Proxy request failed"), ("details", Json.str errMsg)] ∧
    (oauthPost env (some tOauth) bodyText (.throws errMsg) parseErrMsg).fetched.isSome = true ∧
    (apisGet (some tApi) authHeader (.throws errMsg) parseErrMsg).status = 500 ∧
    (apisGet (some tApi) authHeader (.throws errMsg) parseErrMsg).body =
      Json.obj [("error", Json.str "API request failed"), ("details", Json.str errMsg)] ∧
    (apisGet (some tApi) authHeader (.throws errMsg) parseErrMsg).fetched.isSome = true ∧
    (∀ resp : UpstreamResponse, jsonParse resp.bodyText = none →
      (oauthPost env (some tOauth) bodyText (.ok resp) parseErrMsg).status = 500 ∧
      (oauthPost env (some tOauth) bodyText (.ok resp) parseErrMsg).body =
        Json.obj [("error", Json.str "Proxy request failed"),
                  ("details", Json.str parseErrMsg)]) ∧
    (∀ resp : UpstreamResponse, jsonParse resp.bodyText = none →
      (apisGet (some tApi) authHeader (.ok resp) parseErrMsg).status = 500 ∧
      (apisGet (some tApi) authHeader (.ok resp) parseErrMsg).body =
        Json.obj [("error", Json.str "API request failed"),
                  ("details", Json.str parseErrMsg)]) := by
  have hone : ¬ tOauth = "" := by
    intro he
    subst he
    exact absurd h1 (by decide)
  have hmem : tOauth ∈ ALLOWED_OAUTH_ENDPOINTS := by simpa using h1
  have hane : ¬ tApi = "" := by
    intro he
    subst he
    exact absurd h2 (by decide)
  refine ⟨?_, ?_, ?_, ?_, ?_, ?_, fun resp hp => ⟨?_, ?_⟩, fun resp hp => ⟨?_, ?_⟩⟩ <;>
    simp [oauthPost, apisGet, hone, hmem, hane, h2, *]

/-- C9 witness: concrete throwing fetches and a concrete non-JSON upstream
body for both handlers. -/
theorem C9_exceptions_terminal_witness :
    ALLOWED_OAUTH_ENDPOINTS.contains "https://gitlab.com/oauth/token" = true ∧
    (ALLOWED_API_ENDPOINTS.any fun endpoint =>
      strStartsWith "https://gitlab.com/api/v4/user" endpoint) = true ∧
    (oauthPost ⟨"gid", "gsec", "lid", "lsec"⟩ (some "https://gitlab.com/oauth/token")
        "code=abc" (.throws "network down") "bad json").status = 500 ∧
    (oauthPost ⟨"gid", "gsec", "lid", "lsec"⟩ (some "https://gitlab.com/oauth/token")
        "code=abc" (.throws "network down") "bad json").body =
      Json.obj [("error", Json.str "Proxy request failed"),
                ("details", Json.str "network down")] ∧
    (apisGet (some "https://gitlab.com/api/v4/user") none
        (.ok ⟨200, some "text/html", "<html>"⟩) "bad json").status = 500 ∧
    (apisGet (some "https://gitlab.com/api/v4/user") none
        (.ok ⟨200, some "text/html", "<html>"⟩) "bad json").body =
      Json.obj [("error", Json.str "API request failed"), ("details", Json.str "bad json")] :=
  ⟨by decide, by decide,
   (C9_exceptions_terminal ⟨"gid", "gsec", "lid", "lsec"⟩ "https://gitlab.com/oauth/token"
      "https://gitlab.com/api/v4/user" "code=abc" "network down" "bad json" none
      (by decide) (by decide)).1,
   (C9_exceptions_terminal ⟨"gid", "gsec", "lid", "lsec"⟩ "https://gitlab.com/oauth/token"
      "https://gitlab.com/api/v4/user" "code=abc" "network down" "bad json" none
      (by decide) (by decide)).2.1,
   ((C9_exceptions_terminal ⟨"gid", "gsec", "lid", "lsec"⟩ "https://gitlab.com/oauth/token"
      "https://gitlab.com/api/v4/user" "code=abc" "network down" "bad json" none
      (by decide) (by decide)).2.2.2.2.2.2.2 ⟨200, some "text/html", "<html>"⟩ rfl).1,
   ((C9_exceptions_terminal ⟨"gid", "gsec", "lid", "lsec"⟩ "https://gitlab.com/oauth/token"
      "https://gitlab.com/api/v4/user" "code=abc" "network down" "bad json" none
      (by decide) (by decide)).2.2.2.2.2.2.2 ⟨200, some "text/html", "<html>"⟩ rfl).2⟩

/-- C10: for the allow-listed Bitbucket OAuth endpoint, `POST /oauth`
injects no credentials: the forwarded body is the caller's form body
re-encoded unchanged; under the allow-list precondition, credential
injection happens exactly for the GitHub and GitLab endpoints. -/
theorem C10_bitbucket_no_injection (env : Env) (bodyText parseErrMsg : String)
    (outcome : FetchOutcome) :
    oauthInject env "https://bitbucket.org/site/oauth2/access_token"
        (URLSearchParams.parse bodyText) = URLSearchParams.parse bodyText ∧
    (oauthPost env (some "https://bitbucket.org/site/oauth2/access_token") bodyText
        outcome parseErrMsg).fetched =
      some { url := "https://bitbucket.org/site/oauth2/access_token", method := "POST",
             headers := [("Content-Type", "application/x-www-form-urlencoded"),
                         ("Accept", "application/json")],
             body := some (URLSearchParams.serialize (URLSearchParams.parse bodyText)) } ∧
    (∀ t, ALLOWED_OAUTH_ENDPOINTS.contains t = true →
      ¬ t = "https://github.com/login/oauth/access_token" →
      ¬ t = "https://gitlab.com/oauth/token" →
      ∀ ps, oauthInject env t ps = ps) ∧
    (∀ ps, ((oauthInject env "https://github.com/login/oauth/access_token" ps).filter
        (fun p => p.1 == "client_id")).map (fun p => p.2) = [env.GITHUB_CLIENT_ID]) ∧
    (∀ ps, ((oauthInject env "https://gitlab.com/oauth/token" ps).filter
        (fun p => p.1 == "client_id")).map (fun p => p.2) = [env.GITLAB_CLIENT_ID]) := by
  have hbb : ∀ ps, oauthInject env "https://bitbucket.org/site/oauth2/access_token" ps = ps := by
    intro ps
    simp only [oauthInject,
      (by decide : strIncludes "https://bitbucket.org/site/oauth2/access_token"
        "github.com" = false),
      (by decide : strIncludes "https://bitbucket.org/site/oauth2/access_token"
        "gitlab.com" = false)]
    simp
  refine ⟨hbb _, ?_, ?_, ?_, ?_⟩
  · rw [oauthPost_fetch_of_allowed env bodyText outcome parseErrMsg _ (by decide) (by decide),
      hbb]
  · intro t hmem hgh hgl ps
    have ht : t ∈ ALLOWED_OAUTH_ENDPOINTS := by simpa using hmem
    simp only [ALLOWED_OAUTH_ENDPOINTS, List.mem_cons, List.mem_singleton] at ht
    rcases ht with rfl | rfl | rfl | h
    · exact absurd rfl hgh
    · exact absurd rfl hgl
    · exact hbb ps
    · exact absurd h (List.not_mem_nil t)
  · intro ps
    simp only [oauthInject,
      (by decide : strIncludes "https://github.com/login/oauth/access_token"
        "github.com" = true), if_true]
    rw [URLSearchParams.set_filter_other _ "client_secret" "client_id" _ (by decide)]
    exact URLSearchParams.set_filter_self _ _ _
  · intro ps
    simp only [oauthInject,
      (by decide : strIncludes "https://gitlab.com/oauth/token" "github.com" = false),
      (by decide : strIncludes "https://gitlab.com/oauth/token" "gitlab.com" = true)]
    simp only [Bool.false_eq_true, if_false, if_true]
    rw [URLSearchParams.set_filter_other _ "client_secret" "client_id" _ (by decide)]
    exact URLSearchParams.set_filter_self _ _ _

/-- C10 witness: the Bitbucket endpoint is allow-listed, differs from the
GitHub and GitLab endpoints, and a concrete form body passes through
uninjected. -/
theorem C10_bitbucket_no_injection_witness :
    ALLOWED_OAUTH_ENDPOINTS.contains "https://bitbucket.org/site/oauth2/access_token" = true ∧
    ¬ "https://bitbucket.org/site/oauth2/access_token" =
        "https://github.com/login/oauth/access_token" ∧
    ¬ "https://bitbucket.org/site/oauth2/access_token" = "https://gitlab.com/oauth/token" ∧
    oauthInject ⟨"gid", "gsec", "lid", "lsec"⟩
      "https://bitbucket.org/site/oauth2/access_token" [("code", "x")] = [("code", "x")] :=
  ⟨by decide, by decide, by decide,
   (C10_bitbucket_no_injection ⟨"gid", "gsec", "lid", "lsec"⟩ "code=x" "parse error"
      (.throws "boom")).2.2.1 "https://bitbucket.org/site/oauth2/access_token"
     (by decide) (by decide) (by decide) [("code", "x")]⟩

/-- C6: for every `GET /apis` request whose allow-listed target responds
with a content type that does not contain `application/json` (or with no
content type at all), the latest handler returns HTTP 500 whose `details`
field is the raw body truncated to at most 500 characters. -/
theorem C6_apis_non_json_content_type (authHeader : Option String) (t thrownErrMsg : String)
    (resp : UpstreamResponse)
    (h2 : (ALLOWED_API_ENDPOINTS.any fun endpoint => strStartsWith t endpoint) = true)
    (hct : ∀ ct, resp.contentType = some ct → strIncludes ct "application/json" = false) :
    (apisGetLatest (some t) authHeader (.ok resp) thrownErrMsg).status = 500 ∧
    (apisGetLatest (some t) authHeader (.ok resp) thrownErrMsg).body =
      Json.obj [("error", Json.str "Invalid response type"),
                ("details", Json.str (jsSubstringTo resp.bodyText 500)),
                ("status", Json.num resp.status)] ∧
    (jsSubstringTo resp.bodyText 500).length ≤ 500 := by
  have hane : ¬ t = "" := by
    intro he
    subst he
    exact absurd h2 (by decide)
  have hctf : (match resp.contentType with
      | none => false
      | some ct => strIncludes ct "application/json") = false := by
    cases hc : resp.contentType with
    | none => rfl
    | some ct => exact hct ct hc
  have hlen : (jsSubstringTo resp.bodyText 500).length ≤ 500 := by
    have : (jsSubstringTo resp.bodyText 500).length = (resp.bodyText.data.take 500).length :=
      rfl
    rw [this]
    exact resp.bodyText.data.length_take_le 500
  exact ⟨by simp [apisGetLatest, hane, h2, hctf], by simp [apisGetLatest, hane, h2, hctf],
    hlen⟩

/-- C6 witness: an allow-listed target answering `text/html` with a short
body is turned into a 500 with the capped excerpt. -/
theorem C6_apis_non_json_content_type_witness :
    (ALLOWED_API_ENDPOINTS.any fun endpoint =>
      strStartsWith "https://api.github.com/user" endpoint) = true ∧
    (∀ ct, (some "text/html; charset=utf-8" : Option String) = some ct →
      strIncludes ct "application/json" = false) ∧
    (apisGetLatest (some "https://api.github.com/user") none
        (.ok ⟨503, some "text/html; charset=utf-8", "<html>Service Unavailable</html>"⟩)
        "typeerror").status = 500 ∧
    (apisGetLatest (some "https://api.github.com/user") none
        (.ok ⟨503, some "text/html; charset=utf-8", "<html>Service Unavailable</html>"⟩)
        "typeerror").body
      = Json.obj [("error", Json.str "Invalid response type"),
                  ("details", Json.str "<html>Service Unavailable</html>"),
                  ("status", Json.num 503)] :=
  ⟨by decide,
   fun ct hct => by injection hct with h2; subst h2; decide,
   (C6_apis_non_json_content_type none "https://api.github.com/user" "typeerror"
      ⟨503, some "text/html; charset=utf-8", "<html>Service Unavailable</html>"⟩
      (by decide) (fun ct hct => by injection hct with h2; subst h2; decide)).1,
   ((C6_apis_non_json_content_type none "https://api.github.com/user" "typeerror"
      ⟨503, some "text/html; charset=utf-8", "<html>Service Unavailable</html>"⟩
      (by decide) (fun ct hct => by injection hct with h2; subst h2; decide)).2.1)⟩

/-- C7 counterexample: an upstream 404 `application/json` response whose
body is an object with a present but empty `message` field.  The claim says
the `details` field then equals that `message` value (the empty string);
the code instead falls back to the stringified body because the empty
string is falsy in `data.message || JSON.stringify(data)`. -/
theorem C7_counterexample_empty_message :
    jsonParse "\x7b\"message\":\"\"\x7d" = some (Json.obj [("message", Json.str "")]) ∧
    (Json.obj [("message", Json.str "")]).getField "message" = some (Json.str "") ∧
    (apisGetLatest (some "https://api.github.com/user") none
        (.ok ⟨404, some "application/json", "\x7b\"message\":\"\"\x7d"⟩)
        "typeerror").status = 404 ∧
    (apisGetLatest (some "https://api.github.com/user") none
        (.ok ⟨404, some "application/json", "\x7b\"message\":\"\"\x7d"⟩)
        "typeerror").body.getField
      "details" = some (Json.str "\x7b\"message\":\"\"\x7d") ∧
    ¬ (apisGetLatest (some "https://api.github.com/user") none
        (.ok ⟨404, some "application/json", "\x7b\"message\":\"\"\x7d"⟩)
        "typeerror").body.getField
      "details" = some (Json.str "") := by
  refine ⟨rfl, rfl, rfl, rfl, fun hcontra => ?_⟩
  have h1 : Json.str "\x7b\"message\":\"\"\x7d" = Json.str "" := Option.some.inj hcontra
  injection h1 with h2
  exact absurd h2 (by decide)

/-- C7 (amended): for every `GET /apis` request whose allow-listed target
responds with a non-2xx status, a JSON content type and a well-formed JSON
body, if the body is not JSON `null` the handler returns the upstream
status code with a `details` field equal to the body's `message` field when
present and truthy (in particular any non-empty string) and the stringified
body otherwise (absent or falsy `message`, e.g. the empty string); when the
body parses to JSON `null`, the `message` read throws and the handler
returns HTTP 500 with the API error payload and the exception's message as
`details`. -/
theorem C7_apis_upstream_error_message (authHeader : Option String)
    (t ct thrownErrMsg : String) (resp : UpstreamResponse) (data : Json)
    (h2 : (ALLOWED_API_ENDPOINTS.any fun endpoint => strStartsWith t endpoint) = true)
    (hct : resp.contentType = some ct)
    (hcj : strIncludes ct "application/json" = true)
    (hp : jsonParse resp.bodyText = some data)
    (hok : resp.ok = false) :
    (¬ data = Json.null →
      (apisGetLatest (some t) authHeader (.ok resp) thrownErrMsg).status = resp.status) ∧
    (∀ m, data.getField "message" = some m → m.truthy = true →
      (apisGetLatest (some t) authHeader (.ok resp) thrownErrMsg).body =
        Json.obj [("error", Json.str "API request failed"), ("details", m),
                  ("status", Json.num resp.status)]) ∧
    (¬ data = Json.null →
      (data.getField "message" = none ∨
        (∃ m, data.getField "message" = some m ∧ m.truthy = false)) →
      (apisGetLatest (some t) authHeader (.ok resp) thrownErrMsg).body =
        Json.obj [("error", Json.str "API request failed"),
                  ("details", Json.str (jsonStringify data)),
                  ("status", Json.num resp.status)]) ∧
    (data = Json.null →
      (apisGetLatest (some t) authHeader (.ok resp) thrownErrMsg).status = 500 ∧
      (apisGetLatest (some t) authHeader (.ok resp) thrownErrMsg).body =
        Json.obj [("error", Json.str "API request failed"),
                  ("details", Json.str thrownErrMsg)]) := by
  have hane : ¬ t = "" := by
    intro he
    subst he
    exact absurd h2 (by decide)
  have hstN : ∀ hnn : ¬ data = Json.null,
      (apisGetLatest (some t) authHeader (.ok resp) thrownErrMsg).status = resp.status := by
    intro hnn
    have hg := jsGetProp_eq_getField data "message" hnn
    simp [apisGetLatest, hane, h2, hct, hcj, hp, hok, hg]
  have hbdN : ∀ hnn : ¬ data = Json.null,
      (apisGetLatest (some t) authHeader (.ok resp) thrownErrMsg).body =
        Json.obj [("error", Json.str "API request failed"),
                  ("details", messageOrStringify (data.getField "message") data),
                  ("status", Json.num resp.status)] := by
    intro hnn
    have hg := jsGetProp_eq_getField data "message" hnn
    simp [apisGetLatest, hane, h2, hct, hcj, hp, hok, hg]
  refine ⟨hstN, fun m hm htr => ?_, fun hnn hfalsy => ?_, fun hn => ?_⟩
  · have hnn : ¬ data = Json.null := by
      intro he
      subst he
      simp [Json.getField] at hm
    rw [hbdN hnn]
    simp [messageOrStringify, hm, htr]
  · rw [hbdN hnn]
    rcases hfalsy with hnone | ⟨m, hm, hfls⟩
    · simp [messageOrStringify, hnone]
    · simp [messageOrStringify, hm, hfls]
  · subst hn
    constructor <;> simp [apisGetLatest, hane, h2, hct, hcj, hp, hok, jsGetProp]

/-- C7 (amended) witness: an upstream 404 JSON body with a non-empty
`message` is surfaced as the `details` value with the upstream status. -/
theorem C7_apis_upstream_error_message_witness :
    (ALLOWED_API_ENDPOINTS.any fun endpoint =>
      strStartsWith "https://api.github.com/user" endpoint) = true ∧
    jsonParse "\x7b\"message\":\"Not Found\"\x7d" =
      some (Json.obj [("message", Json.str "Not Found")]) ∧
    (Json.obj [("message", Json.str "Not Found")]).getField "message" =
      some (Json.str "Not Found") ∧
    (apisGetLatest (some "https://api.github.com/user") none
        (.ok ⟨404, some "application/json", "\x7b\"message\":\"Not Found\"\x7d"⟩)
        "typeerror").status = 404 ∧
    (apisGetLatest (some "https://api.github.com/user") none
        (.ok ⟨404, some "application/json", "\x7b\"message\":\"Not Found\"\x7d"⟩)
        "typeerror").body =
      Json.obj [("error", Json.str "API request failed"),
                ("details", Json.str "Not Found"), ("status", Json.num 404)] :=
  ⟨by decide, rfl, rfl,
   (C7_apis_upstream_error_message none "https://api.github.com/user" "application/json"
      "typeerror" ⟨404, some "application/json", "\x7b\"message\":\"Not Found\"\x7d"⟩
      (Json.obj [("message", Json.str "Not Found")])
      (by decide) rfl (by decide) rfl rfl).1 (fun h => (nomatch h)),
   (C7_apis_upstream_error_message none "https://api.github.com/user" "application/json"
      "typeerror" ⟨404, some "application/json", "\x7b\"message\":\"Not Found\"\x7d"⟩
      (Json.obj [("message", Json.str "Not Found")])
      (by decide) rfl (by decide) rfl rfl).2.1 (Json.str "Not Found") rfl rfl⟩
